import Mathlib

/-!
Verification of the thread intelligence engine: a shallow embedding of the
rule-based analysis pipeline in `thread_summarizer.py` (class ThreadSummarizer)
and the per-message urgency classifier in `nlp_analyzer.py` (class NLPAnalyzer),
together with theorems settling the specification claims about them.

Modelling conventions:
- Python `datetime` values are modelled as `DT` (whole days since 1970-01-01
  plus minute of day); `timedelta.days` becomes `daysBetween` (floor division,
  like Python).  The two places the source calls `datetime.now()` are modelled
  by an explicit `now : DT` parameter.
- Python strings are Lean `String`s; `.lower()` is `strLower` (ASCII),
  `in` (substring test) is `hasSub`, `.strip()` is `pyStrip`.
- Dictionaries returned by the source become structures with the same fields.
-/

namespace Outlook

/-- Python `str.lower()` (ASCII range, which is all the fixed keyword tables use). -/
def strLower (s : String) : String := String.mk (s.toList.map Char.toLower)

/-- Python `c in s` for a single character. -/
def hasChar (s : String) (c : Char) : Bool := s.toList.contains c

/-- Python `s[:n]` (by characters). -/
def strTake (s : String) (n : Nat) : String := String.mk (s.toList.take n)

/-- Python `s.replace(a, b)` for single-character `a` and `b`. -/
def replaceChar (s : String) (a b : Char) : String :=
  String.mk (s.toList.map (fun c => if c = a then b else c))

/-- Python `s.startswith(p)`. -/
def strStarts (s p : String) : Bool := p.toList.isPrefixOf s.toList

/-- Python `s.split(sep)` for a single-character separator: keeps empty chunks
(unlike `split()` with no argument). -/
def splitCharAux (c : Char) : List Char → List Char → List (List Char)
  | [], cur => [cur.reverse]
  | x :: rest, cur =>
    if x = c then cur.reverse :: splitCharAux c rest [] else splitCharAux c rest (x :: cur)

def pySplitChar (s : String) (c : Char) : List String :=
  (splitCharAux c s.toList []).map String.mk

/-- The insertion step of a stable ascending sort: the new element goes after
every element that is `le` it, so equal keys keep their original order, just as
in Python's stable `sorted`. -/
def pyInsert {α : Type} (le : α → α → Bool) (x : α) : List α → List α
  | [] => [x]
  | y :: t => if le y x then y :: pyInsert le x t else x :: y :: t

def pySortedAux {α : Type} (le : α → α → Bool) : List α → List α → List α
  | acc, [] => acc
  | acc, x :: t => pySortedAux le (pyInsert le x acc) t

/-- Python `sorted(l, key=...)`, as a stable insertion sort. -/
def pySorted {α : Type} (le : α → α → Bool) (l : List α) : List α := pySortedAux le [] l

/-- Python whitespace for `str.strip()` / `\s`. -/
def isSpaceChar (c : Char) : Bool :=
  c = ' ' || c = '\t' || c = '\n' || c = '\r' || c = '\x0b' || c = '\x0c'

/-- Python `str.strip()` on a character list. -/
def pyStripList (l : List Char) : List Char :=
  ((l.dropWhile isSpaceChar).reverse.dropWhile isSpaceChar).reverse

/-- Python `str.strip()`. -/
def pyStrip (s : String) : String := String.mk (pyStripList s.toList)

/-- Python `needle in hay` (substring containment) on character lists. -/
def hasSubList (needle : List Char) : List Char → Bool
  | [] => needle.isEmpty
  | c :: t => needle.isPrefixOf (c :: t) || hasSubList needle t

/-- Python `needle in hay` for strings. -/
def hasSub (hay needle : String) : Bool := hasSubList needle.toList hay.toList

/-- Python `hay.find(needle)`: index of the first occurrence. -/
def subFind (needle : List Char) : List Char → Option Nat
  | [] => if needle.isEmpty then some 0 else none
  | c :: t =>
    if needle.isPrefixOf (c :: t) then some 0 else (subFind needle t).map (· + 1)

/-! ## Dates

`DT` models a naive Python `datetime` at minute resolution (all datetimes the
engine constructs have zero seconds/microseconds): `days` counts civil days
since 1970-01-01, `mins` is the minute of the day. -/

structure DT where
  days : Int
  mins : Nat
deriving DecidableEq, Repr

/-- Civil date to day number (days since 1970-01-01), Gregorian calendar. -/
def daysFromCivil (y m d : Int) : Int :=
  let y' := if m ≤ 2 then y - 1 else y
  let era := Int.fdiv y' 400
  let yoe := y' - era * 400
  let mp := if 2 < m then m - 3 else m + 9
  let doy := Int.fdiv (153 * mp + 2) 5 + d - 1
  let doe := yoe * 365 + Int.fdiv yoe 4 - Int.fdiv yoe 100 + doy
  era * 146097 + doe - 719468

/-- Day number back to civil date (year, month, day). -/
def civilFromDays (z0 : Int) : Int × Int × Int :=
  let z := z0 + 719468
  let era := Int.fdiv z 146097
  let doe := z - era * 146097
  let yoe :=
    Int.fdiv (doe - Int.fdiv doe 1460 + Int.fdiv doe 36524 - Int.fdiv doe 146096) 365
  let y := yoe + era * 400
  let doy := doe - (365 * yoe + Int.fdiv yoe 4 - Int.fdiv yoe 100)
  let mp := Int.fdiv (5 * doy + 2) 153
  let d := doy - Int.fdiv (153 * mp + 2) 5 + 1
  let m := if mp < 10 then mp + 3 else mp - 9
  (if m ≤ 2 then y + 1 else y, m, d)

def DT.year (t : DT) : Int := (civilFromDays t.days).1

def DT.month (t : DT) : Int := (civilFromDays t.days).2.1

def DT.day (t : DT) : Int := (civilFromDays t.days).2.2

def DT.hour (t : DT) : Nat := t.mins / 60

def DT.minute (t : DT) : Nat := t.mins % 60

/-- Python `datetime.weekday()`: Monday = 0.  1970-01-01 was a Thursday (3). -/
def DT.weekday (t : DT) : Int := (t.days + 3).emod 7

/-- Python `dt + timedelta(days = n)`. -/
def DT.addDays (t : DT) (n : Int) : DT := ⟨t.days + n, t.mins⟩

/-- Build a `DT` from a civil date and time of day, like `datetime(y, m, d, hh, mm)`. -/
def mkDT (y m d : Int) (hh mm : Nat) : DT := ⟨daysFromCivil y m d, hh * 60 + mm⟩

/-- Python `(a - b).days`: `timedelta.days` floors towards minus infinity. -/
def daysBetween (a b : DT) : Int :=
  Int.fdiv ((a.days - b.days) * 1440 + (a.mins : Int) - (b.mins : Int)) 1440

/-- Python chronological comparison of datetimes, as a `Bool` order for sorting. -/
def DT.le (a b : DT) : Bool := a.days < b.days || (a.days = b.days && a.mins ≤ b.mins)

def isLeapYear (y : Int) : Bool := y % 4 = 0 && (y % 100 ≠ 0 || y % 400 = 0)

def daysInMonth (y m : Int) : Int :=
  if m = 2 then (if isLeapYear y then 29 else 28)
  else if m = 4 ∨ m = 6 ∨ m = 9 ∨ m = 11 then 30
  else 31

/-- Whether `datetime(y, m, d, ...)` succeeds (otherwise the source catches and skips). -/
def validDate (y m d : Int) : Bool :=
  1 ≤ y && y ≤ 9999 && 1 ≤ m && m ≤ 12 && 1 ≤ d && decide (d ≤ daysInMonth y m)

def pad2 (n : Int) : String := if n < 10 then "0" ++ toString n else toString n

def pad4 (n : Int) : String :=
  if n < 10 then "000" ++ toString n
  else if n < 100 then "00" ++ toString n
  else if n < 1000 then "0" ++ toString n
  else toString n

def pad2N (n : Nat) : String := if n < 10 then "0" ++ toString n else toString n

/-- Python `strftime("%Y-%m-%d %H:%M")`. -/
def formatYmdHm (t : DT) : String :=
  pad4 t.year ++ "-" ++ pad2 t.month ++ "-" ++ pad2 t.day ++ " " ++
    pad2N t.hour ++ ":" ++ pad2N t.minute

/-- Python `strftime("%Y-%m-%d")`. -/
def formatYmd (t : DT) : String :=
  pad4 t.year ++ "-" ++ pad2 t.month ++ "-" ++ pad2 t.day

/-- Python `datetime.isoformat()` for a zero-second datetime. -/
def isoFormat (t : DT) : String :=
  pad4 t.year ++ "-" ++ pad2 t.month ++ "-" ++ pad2 t.day ++ "T" ++
    pad2N t.hour ++ ":" ++ pad2N t.minute ++ ":00"

/-! ## Input records -/

/-- One email of a thread, with the fields the rule-based engine reads. -/
structure Email where
  sender : String
  senderEmail : Option String
  subject : String
  body : String
  receivedTime : DT
deriving DecidableEq, Repr

/-- Thread metadata, with the fields the rule-based engine reads. -/
structure Metadata where
  threadName : String
  emailCount : Nat
  participantCount : Nat
  durationDays : Nat
  totalAttachments : Nat
  isUrgent : Bool
  hasDelay : Bool
  isTransport : Bool
  isCustoms : Bool
deriving DecidableEq, Repr

/-- `config.KEYWORDS_URGENT`. -/
def keywordsUrgent : List String := ["urgent", "asap", "emergency", "critical", "immediate"]

/-- `config.KEYWORDS_DELAY`. -/
def keywordsDelay : List String := ["delay", "delayed", "postponed", "late", "waiting"]

/-! ## Urgency classifier (`NLPAnalyzer._calculate_urgency`) -/

structure UrgencyScore where
  score : Nat
  level : String
  keywordsFound : List String
deriving DecidableEq, Repr

/-- The fixed keyword weight table of `_calculate_urgency`, in dict order. -/
def urgentKeywords : List (String × Nat) :=
  [("asap", 10), ("urgent", 10), ("immediately", 10), ("emergency", 10),
   ("critical", 9), ("important", 7), ("priority", 7), ("deadline", 8),
   ("today", 6), ("tonight", 6), ("eod", 8), ("end of day", 8),
   ("tomorrow", 5), ("by monday", 5), ("by friday", 4),
   ("please confirm", 4), ("need your", 5), ("waiting for", 5),
   ("overdue", 9), ("past due", 9), ("late", 6), ("delayed", 6),
   ("escalate", 8), ("escalation", 8)]

/-- Python regex word character (`\w`), ASCII range. -/
def isWordChar (c : Char) : Bool := c.isAlphanum || c = '_'

def isUpperAZ (c : Char) : Bool := 'A' ≤ c && c ≤ 'Z'

/-- Maximal runs of word characters of a text (accumulator holds the current
run reversed). -/
def wordRunsAux : List Char → List Char → List (List Char)
  | [], cur => if cur.isEmpty then [] else [cur.reverse]
  | c :: rest, cur =>
    if isWordChar c then wordRunsAux rest (c :: cur)
    else if cur.isEmpty then wordRunsAux rest []
    else cur.reverse :: wordRunsAux rest []

/-- Number of matches of `\b[A-Z]{3,}\b`: maximal word runs that consist solely
of uppercase ASCII letters and have length at least 3. -/
def capsWordCount (s : String) : Nat :=
  ((wordRunsAux s.toList []).filter
    (fun r => decide (3 ≤ r.length) && r.all isUpperAZ)).length

/-- The `high_impact` set of `_calculate_urgency` (order irrelevant: only counted). -/
def highImpact : List String := ["asap", "urgent", "immediately", "critical", "emergency"]

/-- `NLPAnalyzer._calculate_urgency`.  The source fills `score` and
`matched_keywords` in one pass over the table; two folds over the same table
compute the same values. -/
def calculateUrgency (text : String) : UrgencyScore :=
  let textLower := strLower text
  let score0 :=
    urgentKeywords.foldl (fun acc kw => if hasSub textLower kw.1 then acc + kw.2 else acc) 0
  let matched :=
    urgentKeywords.foldl
      (fun acc kw => if hasSub textLower kw.1 then acc ++ [kw.1] else acc) ([] : List String)
  let score1 := score0 + min (text.toList.count '!' * 3) 15
  let score2 := score1 + min (capsWordCount text * 3) 15
  let foundHighImpact := (highImpact.filter (fun w => hasSub textLower w)).length
  let score3 :=
    if 2 ≤ foundHighImpact then score2 + 15
    else if foundHighImpact = 1 then score2 + 5
    else score2
  let normalizedScore := min score3 100
  let level :=
    if 70 ≤ normalizedScore then "critical"
    else if 50 ≤ normalizedScore then "high"
    else if 30 ≤ normalizedScore then "medium"
    else "low"
  ⟨normalizedScore, level, matched⟩

/-! ## Priority scorer (`ThreadSummarizer._calculate_priority_score`) -/

structure PriorityScore where
  score : Int
  priority : String
  factors : List String
deriving DecidableEq, Repr

/-- The response condition the priority scorer actually tests (line 314 of
`thread_summarizer.py`): a question mark or one of only three phrases. -/
def scorerRespCond (lastBodyLower : String) : Bool :=
  hasChar lastBodyLower '?' ||
    (["please confirm", "can you", "need your"].any (fun w => hasSub lastBodyLower w))

/-- `ThreadSummarizer._calculate_priority_score`.  `now` stands for the
`datetime.now()` the source reads when computing recency. -/
def calculatePriorityScore (sortedEmails : List Email) (metadata : Metadata) (now : DT) :
    PriorityScore :=
  match sortedEmails.getLast? with
  | none => ⟨0, "Low", []⟩
  | some lastEmail =>
    let s1 : Int := if metadata.isUrgent then 30 else 0
    let f1 : List String := if metadata.isUrgent then ["Contains urgent keywords"] else []
    let lastBody := strLower lastEmail.body
    let respCond := scorerRespCond lastBody
    let s2 := if respCond then s1 + 25 else s1
    let f2 := if respCond then f1 ++ ["Response/action required"] else f1
    let daysSinceLast := daysBetween now lastEmail.receivedTime
    let s3 := if daysSinceLast < 2 then s2 + 20
      else if 7 < daysSinceLast then s2 - 10 else s2
    let f3 := if daysSinceLast < 2 then f2 ++ ["Recent activity (< 2 days)"]
      else if 7 < daysSinceLast then f2 ++ ["No recent activity (> 7 days)"] else f2
    let s4 := if 3 < metadata.participantCount then s3 + 10 else s3
    let f4 := if 3 < metadata.participantCount then f3 ++ ["Multiple stakeholders involved"] else f3
    let s5 := if metadata.hasDelay then s4 + 15 else s4
    let f5 := if metadata.hasDelay then f4 ++ ["Contains delay indicators"] else f4
    let s6 := if 10 < metadata.emailCount then s5 + 10 else s5
    let f6 := if 10 < metadata.emailCount then f5 ++ ["High email volume (active discussion)"] else f5
    let s7 := if metadata.isCustoms then s6 + 5 else s6
    let f7 := if metadata.isCustoms then f6 ++ ["Customs-related"] else f6
    let s8 := if metadata.isTransport then s7 + 5 else s7
    let f8 := if metadata.isTransport then f7 ++ ["Transport-related"] else f7
    let score := min 100 (max 0 s8)
    let priority :=
      if 70 ≤ score then "Critical"
      else if 50 ≤ score then "High"
      else if 30 ≤ score then "Medium"
      else "Low"
    ⟨score, priority, f8⟩

/-! ## Spec-side threshold tables and score components (from the spec text) -/

/-- The fixed priority threshold table of §3 of the spec. -/
def specPriorityLevel (s : Int) : String :=
  if s < 30 then "Low" else if s < 50 then "Medium" else if s < 70 then "High" else "Critical"

/-- The fixed urgency threshold table of §3 of the spec. -/
def specUrgencyLevel (s : Nat) : String :=
  if s < 30 then "low" else if s < 50 then "medium" else if s < 70 then "high" else "critical"

/-- Spec §4.2: the weighted sum over the fixed keyword table of matched keywords. -/
def urgencyKeywordSum (text : String) : Nat :=
  ((urgentKeywords.filter (fun kw => hasSub (strLower text) kw.1)).map (·.2)).sum

/-- Spec §4.2: `min(3 × exclamation_count, 15)`. -/
def urgencyExclaimTerm (text : String) : Nat := min (3 * text.toList.count '!') 15

/-- Spec §4.2: `min(3 × all-caps-word-count, 15)`. -/
def urgencyCapsTerm (text : String) : Nat := min (3 * capsWordCount text) 15

/-- Spec §4.2: the synergy bonus for co-occurring high-impact keywords. -/
def urgencySynergyTerm (text : String) : Nat :=
  let found := (highImpact.filter (fun w => hasSub (strLower text) w)).length
  if 2 ≤ found then 15 else if found = 1 then 5 else 0

/-! ## Due-date parsing (`ThreadSummarizer._parse_due_date`)

The two `re.search` calls are modelled by explicit scanners with the
backtracking preferences of the Python `re` engine spelled out: greedy groups
try the longer length first, the optional group tries presence before absence,
and the scan returns the leftmost position that matches. -/

def sepClass (c : Char) : Bool := c = '.' || c = '/' || c = '-'

def digitsToNat (l : List Char) : Nat := l.foldl (fun a c => a * 10 + (c.toNat - 48)) 0

/-- Take exactly `n` digit characters, returning them and the rest. -/
def takeDigits : Nat → List Char → Option (List Char × List Char)
  | 0, l => some ([], l)
  | _ + 1, [] => none
  | n + 1, c :: t => if c.isDigit then (takeDigits n t).map (fun p => (c :: p.1, p.2)) else none

/-- Try an option-producing function on each element, first success wins. -/
def firstSome? {α β : Type} : List α → (α → Option β) → Option β
  | [], _ => none
  | a :: t, f => match f a with | some b => some b | none => firstSome? t f

/-- A `\b` between the consumed text and `l` (the next char must not be a word
character) — the characters consumed before this point are always digits. -/
def boundaryOk : List Char → Bool
  | [] => true
  | c :: _ => !isWordChar c

/-- Match `(\d{1,2}) sep (\d{1,2}) (?: sep (\d{2,4}))? \b` at the head of `l`,
where `sep` is the class of dot, slash and dash. -/
def tryRe1Core (l : List Char) : Option (Nat × Nat × Option Nat) :=
  firstSome? [2, 1] fun n1 =>
    match takeDigits n1 l with
    | none => none
    | some (d1, r1) =>
      match r1 with
      | [] => none
      | s :: r2 =>
        if sepClass s then
          firstSome? [2, 1] fun n2 =>
            match takeDigits n2 r2 with
            | none => none
            | some (d2, r3) =>
              let withOpt := firstSome? [4, 3, 2] fun n3 =>
                match r3 with
                | [] => none
                | s2 :: r4 =>
                  if sepClass s2 then
                    match takeDigits n3 r4 with
                    | none => none
                    | some (d3, r5) =>
                      if boundaryOk r5 then
                        some (digitsToNat d1, digitsToNat d2, some (digitsToNat d3))
                      else none
                  else none
              match withOpt with
              | some res => some res
              | none =>
                if boundaryOk r3 then some (digitsToNat d1, digitsToNat d2, none) else none
        else none

/-- Leftmost search for the first explicit-date pattern of `_parse_due_date`;
`prevWord` records whether the previous character is a word character (for the
leading `\b` — the first matched character is a digit, hence a word character). -/
def re1Search : Bool → List Char → Option (Nat × Nat × Option Nat)
  | _, [] => none
  | prevWord, c :: t =>
    match (if prevWord then none else tryRe1Core (c :: t)) with
    | some r => some r
    | none => re1Search (isWordChar c) t

/-- Match `(20\d{2})-(\d{1,2})-(\d{1,2})\b` at the head of `l`. -/
def tryRe2Core (l : List Char) : Option (Nat × Nat × Nat) :=
  match l with
  | '2' :: '0' :: a :: b :: '-' :: r2 =>
    if a.isDigit && b.isDigit then
      firstSome? [2, 1] fun n2 =>
        match takeDigits n2 r2 with
        | none => none
        | some (d2, r3) =>
          match r3 with
          | '-' :: r4 =>
            firstSome? [2, 1] fun n3 =>
              match takeDigits n3 r4 with
              | none => none
              | some (d3, r5) =>
                if boundaryOk r5 then
                  some (digitsToNat ['2', '0', a, b], digitsToNat d2, digitsToNat d3)
                else none
          | _ => none
    else none
  | _ => none

/-- Leftmost search for `\b(20\d{2})-(\d{1,2})-(\d{1,2})\b`. -/
def re2Search : Bool → List Char → Option (Nat × Nat × Nat)
  | _, [] => none
  | prevWord, c :: t =>
    match (if prevWord then none else tryRe2Core (c :: t)) with
    | some r => some r
    | none => re2Search (isWordChar c) t

def weekdayEnum : List (Nat × String) :=
  [(0, "monday"), (1, "tuesday"), (2, "wednesday"), (3, "thursday"),
   (4, "friday"), (5, "saturday"), (6, "sunday")]

/-- The `for idx, name in enumerate(weekdays)` loop: first listed weekday name
contained in the text. -/
def findWeekday (t : List Char) : List (Nat × String) → Option Nat
  | [] => none
  | (i, nm) :: rest => if hasSubList nm.toList t then some i else findWeekday t rest

/-- `ThreadSummarizer._parse_due_date`.  A regex match whose calendar date is
invalid is discarded (`except: pass`) and the later patterns are still tried. -/
def parseDueDate (text : String) (base : DT) : Option DT :=
  let t := strLower text
  if hasSub t "eod" then
    -- `datetime(base.year, base.month, base.day, 17, 0)`; the subsequent
    -- `dt.replace(day=base.day)` when `base.hour > 17` is a no-op
    some ⟨base.days, 17 * 60⟩
  else if hasSub t "tomorrow" then some (base.addDays 1)
  else
    let fromRe1 : Option DT :=
      match re1Search false t.toList with
      | some (d, mth, yOpt) =>
        let y : Int := match yOpt with | some yv => (yv : Int) | none => base.year
        if validDate y (mth : Int) (d : Int) then some (mkDT y (mth : Int) (d : Int) 17 0)
        else none
      | none => none
    match fromRe1 with
    | some dt => some dt
    | none =>
      let fromRe2 : Option DT :=
        match re2Search false t.toList with
        | some (y, mth, d) =>
          if validDate (y : Int) (mth : Int) (d : Int) then
            some (mkDT (y : Int) (mth : Int) (d : Int) 17 0)
          else none
        | none => none
      match fromRe2 with
      | some dt => some dt
      | none =>
        match findWeekday t.toList weekdayEnum with
        | some idx =>
          let delta := ((idx : Int) - base.weekday).emod 7
          let delta' := if delta = 0 then 7 else delta
          some (base.addDays delta')
        | none => none

/-! ## Conversation insights (`ThreadSummarizer._extract_conversation_insights`) -/

structure FlowEntry where
  date : String
  sender : String
  subject : String
  preview : String
deriving DecidableEq, Repr

structure ConversationInsights where
  conversationFlow : List FlowEntry
  keyPoints : List String
  responseNeeded : Bool
  nextAction : Option String
  waitingOn : Option String
  lastResponder : Option String
deriving DecidableEq, Repr

/-- The `question_indicators` list of `_extract_conversation_insights` (§4.4). -/
def questionIndicators : List String :=
  ["?", "please confirm", "can you", "could you", "would you",
   "need your", "waiting for", "please provide", "please send"]

/-- The §4.4 `response_needed` signal: some question indicator occurs in the
lowercased final body. -/
def responseNeededSignal (lastBodyLower : String) : Bool :=
  questionIndicators.any (fun ind => hasSub lastBodyLower ind)

def waitingPhrases : List String := ["waiting for", "waiting on", "pending", "awaiting"]

def importantWords : List String :=
  ["decision", "agreed", "confirmed", "approved", "rejected",
   "issue", "problem", "solution", "action", "deadline"]

/-- Python `list(set(xs))`: drop duplicates.  CPython iterates the set in an
unspecified order; the embedding picks one concrete order.  No claim depends on
the order, only on the result having pairwise distinct elements. -/
def pyDedup (l : List String) : List String := l.dedup

/-- The `waiting_phrases` loop: first phrase found in the last body yields the
`waiting_on` snippet. -/
def findWaiting (lastBody : List Char) : List String → Option String
  | [] => none
  | ph :: rest =>
    match subFind ph.toList lastBody with
    | some idx =>
      let snippet := (lastBody.drop idx).take 100
      some ("Check email: " ++ String.mk (snippet.take 80) ++ "...")
    | none => findWaiting lastBody rest

/-- The key-point scan of one email: for every important word contained in the
lowercased body, the first `.`-separated sentence containing it whose stripped
length is below 150. -/
def keyPointsOfEmail (em : Email) : List String :=
  let bodyLower := strLower em.body
  importantWords.foldl (fun acc word =>
    if hasSub bodyLower word then
      match (pySplitChar em.body '.').find? (fun sent =>
          hasSub (strLower sent) word && (pyStrip sent).length < 150) with
      | some sent => acc ++ ["[" ++ em.sender ++ "] " ++ pyStrip sent]
      | none => acc
    else acc) []

/-- `ThreadSummarizer._extract_conversation_insights`. -/
def extractConversationInsights (sortedEmails : List Email) (now : DT) : ConversationInsights :=
  match sortedEmails.getLast? with
  | none => ⟨[], [], false, none, none, none⟩
  | some lastEmail =>
    let lastBody := strLower lastEmail.body
    let flow := (sortedEmails.drop (sortedEmails.length - 5)).map (fun em =>
      let preview0 := pyStrip (replaceChar (strTake em.body 150) '\n' ' ')
      let preview := if 150 < em.body.length then preview0 ++ "..." else preview0
      FlowEntry.mk (formatYmdHm em.receivedTime) em.sender em.subject preview)
    let responseNeeded := responseNeededSignal lastBody
    let nextAction0 : Option String :=
      if responseNeeded then some "Response required - question or request in last email"
      else none
    let waitingOn := findWaiting lastBody.toList waitingPhrases
    let nextAction1 := if waitingOn.isSome then some "Waiting on external party" else nextAction0
    let keyPoints := (pyDedup ((sortedEmails.map keyPointsOfEmail).flatten)).take 5
    let nextAction :=
      match nextAction1 with
      | some a => some a
      | none =>
        let daysSinceLast := daysBetween now lastEmail.receivedTime
        if 7 < daysSinceLast then
          some ("Follow up - no activity for " ++ toString daysSinceLast ++ " days")
        else if responseNeeded then some "Review and respond to last email"
        else some "Monitor - no immediate action required"
    ⟨flow, keyPoints, responseNeeded, nextAction, waitingOn, some lastEmail.sender⟩

/-! ## Triage builder (`ThreadSummarizer._build_triage`) -/

structure TriageAction where
  description : String
  ownerGuess : String
  requestedBy : String
  dueDate : Option String
deriving DecidableEq, Repr

structure TriageResult where
  actions : List TriageAction
  dueSoon : Bool
  escalate : Bool
  suggestedNextStep : String
deriving DecidableEq, Repr

def actionWords : List String :=
  ["please", "need", "required", "must", "confirm", "send", "provide", "attach", "deliver", "ship"]

/-- The line scan of `_build_triage` over the last five emails, accumulating
the action list and the `due_soon` flag. -/
def triageScan (now : DT) (ems : List Email) : List TriageAction × Bool :=
  ems.foldl (fun acc em =>
    let who := match em.senderEmail with
      | some se => if se = "" then em.sender else se
      | none => em.sender
    (pySplitChar em.body '\n').foldl (fun acc2 line =>
      let text := pyStrip line
      if text.length < 8 then acc2
      else
        let low := strLower text
        let isAction := hasChar low '?' || actionWords.any (fun w => hasSub low w)
        if !isAction then acc2
        else
          let due := parseDueDate low now
          let dueHit := match due with
            | some d => decide (daysBetween d now ≤ 2)
            | none => false
          (acc2.1 ++ [TriageAction.mk (strTake text 240) "me_or_team" who (due.map isoFormat)],
            acc2.2 || dueHit)) acc) ([], false)

/-- `ThreadSummarizer._build_triage`.  The `issues` argument is unused in the
source body as well. -/
def buildTriage (sortedEmails : List Email) (metadata : Metadata)
    (insights : ConversationInsights) (_issues : List String) (now : DT) : TriageResult :=
  let scanned := triageScan now (sortedEmails.drop (sortedEmails.length - 5))
  let actions := scanned.1
  let dueSoon := scanned.2
  let esc0 := metadata.isUrgent || metadata.hasDelay
  let escalate :=
    match sortedEmails.getLast? with
    | some lastEmail =>
      if 2 ≤ daysBetween now lastEmail.receivedTime ∧ insights.responseNeeded = true then true
      else esc0
    | none => esc0
  let suggestedNext :=
    match insights.nextAction with
    | some a => a
    | none =>
      match actions with
      | a :: _ => a.description
      | [] => "Monitor thread"
  ⟨actions.take 8, dueSoon, escalate, suggestedNext⟩

/-! ## Events, stakeholders, action items, issues, status, reply template -/

/-- `ThreadSummarizer._extract_events`. -/
def extractEvents (sortedEmails : List Email) : List String :=
  let base :=
    match sortedEmails with
    | [] => []
    | first :: _ =>
      let e1 := "[" ++ formatYmdHm first.receivedTime ++ "] Thread started by " ++
        first.sender ++ ": " ++ first.subject
      if 1 < sortedEmails.length then
        match sortedEmails.getLast? with
        | some last =>
          [e1, "[" ++ formatYmdHm last.receivedTime ++ "] Latest update from " ++ last.sender]
        | none => [e1]
      else [e1]
  let withMiddle := ((sortedEmails.drop 1).dropLast).foldl (fun acc em =>
    let bodyLower := strLower em.body
    let subjectLower := strLower em.subject
    if keywordsUrgent.any (fun kw => hasSub bodyLower kw || hasSub subjectLower kw) then
      acc ++ ["[" ++ formatYmdHm em.receivedTime ++ "] URGENT: Update from " ++ em.sender]
    else if keywordsDelay.any (fun kw => hasSub bodyLower kw || hasSub subjectLower kw) then
      acc ++ ["[" ++ formatYmdHm em.receivedTime ++ "] Delay reported by " ++ em.sender]
    else acc) base
  withMiddle.take 10

/-- The `sender_counts` dictionary of `_extract_stakeholders`, in insertion
(first-seen) order. -/
def tallySenders (ems : List Email) : List (String × Nat) :=
  ems.foldl (fun acc em =>
    if acc.any (fun p => p.1 = em.sender) then
      acc.map (fun p => if p.1 = em.sender then (p.1, p.2 + 1) else p)
    else acc ++ [(em.sender, 1)]) []

/-- `ThreadSummarizer._extract_stakeholders`: participation counts sorted
descending (Python `sorted(..., reverse=True)` is stable, as is `mergeSort`). -/
def extractStakeholders (sortedEmails : List Email) : List String :=
  let counts := tallySenders sortedEmails
  let sortedCounts := pySorted (fun a b => decide (b.2 ≤ a.2)) counts
  (sortedCounts.map (fun p => p.1 ++ " (" ++ toString p.2 ++ " emails)")).take 10

def actionWordsExtract : List String :=
  ["please", "need", "required", "must", "should", "confirm", "send", "provide"]

/-- `ThreadSummarizer._extract_action_items` (last three emails). -/
def extractActionItems (sortedEmails : List Email) : List String :=
  ((sortedEmails.drop (sortedEmails.length - 3)).foldl (fun acc em =>
    (pySplitChar em.body '\n').foldl (fun acc2 line =>
      let lineLower := strLower line
      if (hasChar line '?' || actionWordsExtract.any (fun w => hasSub lineLower w)) &&
          line.length < 200 then
        acc2 ++ [pyStrip line]
      else acc2) acc) []).take 5

def issueKeywords : List String :=
  keywordsDelay ++ keywordsUrgent ++ ["problem", "issue", "error", "mistake", "wrong", "missing"]

/-- The per-email part of `_extract_issues`: the outer keyword loop `break`s
after the first keyword contained in the body, whether or not a short enough
sentence was found for it. -/
def issueOfEmail (em : Email) : Option String :=
  let bodyLower := strLower em.body
  match issueKeywords.find? (fun kw => hasSub bodyLower kw) with
  | some kw =>
    ((pySplitChar em.body '.').find? (fun sent =>
        hasSub (strLower sent) kw && (pyStrip sent).length < 200)).map
      (fun sent => "[" ++ formatYmd em.receivedTime ++ "] " ++ pyStrip sent)
  | none => none

/-- `ThreadSummarizer._extract_issues`. -/
def extractIssues (sortedEmails : List Email) : List String :=
  (pyDedup (sortedEmails.filterMap issueOfEmail)).take 5

/-- Python `sep.join(parts)`. -/
def joinWith (sep : String) : List String → String
  | [] => ""
  | [s] => s
  | s :: rest => s ++ sep ++ joinWith sep rest

/-- An ASCII apostrophe, as a string. -/
def apos : String := String.mk [Char.ofNat 39]

/-- `ThreadSummarizer._create_executive_summary`.  The `events` and
`stakeholders` parameters are unused in the source body as well. -/
def createExecutiveSummary (metadata : Metadata) (_events _stakeholders : List String)
    (issues : List String) : String :=
  let parts := ["Email thread " ++ apos ++ metadata.threadName ++ apos ++ " with " ++
    toString metadata.emailCount ++ " emails over " ++ toString metadata.durationDays ++
    " days involving " ++ toString metadata.participantCount ++ " participants."]
  let parts := if metadata.isUrgent then parts ++ ["Thread contains URGENT items."] else parts
  let parts := if metadata.hasDelay then parts ++ ["Thread discusses delays."] else parts
  let parts := if !issues.isEmpty then
      parts ++ ["Identified " ++ toString issues.length ++ " potential issues requiring attention."]
    else parts
  joinWith " " parts

/-- `ThreadSummarizer._determine_status`. -/
def determineStatus (sortedEmails : List Email) (metadata : Metadata) (now : DT) : String :=
  match sortedEmails.getLast? with
  | none => "Unknown"
  | some lastEmail =>
    let daysSince := daysBetween now lastEmail.receivedTime
    let status :=
      if daysSince = 0 then "Active today"
      else if daysSince = 1 then "Active yesterday"
      else if daysSince < 7 then "Active " ++ toString daysSince ++ " days ago"
      else "Last activity " ++ toString daysSince ++ " days ago"
    if metadata.isUrgent then status ++ " - URGENT" else status

/-- `ThreadSummarizer._generate_reply_template`. -/
def generateReplyTemplate (insights : ConversationInsights) (metadata : Metadata) : String :=
  if !insights.responseNeeded then "No response required at this time."
  else
    let t0 := "Subject: Re: " ++ metadata.threadName ++ "\n\nHi team,\n\n"
    let t1 :=
      if insights.waitingOn.isSome then
        t0 ++ "Thank you for your patience. I" ++ apos ++
          "m following up on the pending items mentioned in the thread.\n\n"
      else if hasChar (insights.nextAction.getD "") '?' then
        t0 ++ "Thank you for your email. I" ++ apos ++
          "d like to address your questions:\n\n[Answer the specific questions from the last email]\n\n"
      else
        t0 ++ "Thank you for the update. I wanted to confirm the following:\n\n" ++
          "[Provide your confirmation or update]\n\n"
    let t2 := if metadata.isUrgent then
        t1 ++ "I understand this is urgent and will prioritize accordingly.\n\n"
      else t1
    let t3 := if metadata.hasDelay then
        t2 ++ "Regarding the delay mentioned, [provide status update or resolution].\n\n"
      else t2
    t3 ++ "Please let me know if you need any additional information.\n\nBest regards,\n[Your name]"

/-! ## Lexical utilities (`_tokenize`, `_split_sentences`, `_strip_quotes`) -/

/-- The stopword set of `ThreadSummarizer._stopwords`. -/
def stopwordsList : List String :=
  ["the", "and", "for", "that", "with", "this", "from", "have", "will", "your", "you", "are",
   "was", "were", "been", "they", "them", "our", "but", "not", "all", "any", "can", "could",
   "should", "would", "please", "thank", "thanks", "regards", "kind", "best", "hello", "hi",
   "dear", "into", "out", "over", "under", "about", "above", "below", "what", "when", "where",
   "who", "whom", "why", "how", "which", "also", "asap", "there", "here", "shall", "just",
   "let", "know", "get", "got", "done", "doing", "need", "needed", "needs", "send", "sent",
   "provide", "provided", "confirm", "confirmed", "attached", "attachment", "see", "look",
   "looking", "find", "found", "more", "less", "many", "much", "very", "well", "good", "bad",
   "great", "ok", "okay", "alright", "fine", "today", "yesterday", "tomorrow"]

/-- One step of `re.sub(r"http\S+", " ", s)`: a match is `http` followed by at
least one non-space character; matches are replaced by a single space, scanning
left to right.  The fuel starts at the length of the list and never runs out. -/
def stripUrlsGo : Nat → List Char → List Char
  | 0, l => l
  | _ + 1, [] => []
  | fuel + 1, c :: t =>
    let l := c :: t
    let isHit := ['h', 't', 't', 'p'].isPrefixOf l &&
      (match l.drop 4 with
       | [] => false
       | d :: _ => !isSpaceChar d)
    if isHit then ' ' :: stripUrlsGo fuel ((l.drop 4).dropWhile (fun d => !isSpaceChar d))
    else c :: stripUrlsGo fuel t

def stripUrls (l : List Char) : List Char := stripUrlsGo l.length l

/-- `re.sub(r"[^a-z0-9\s]", " ", s)` on one character (the text was lowercased
before this step). -/
def keepToken (c : Char) : Char :=
  if ('a' ≤ c && c ≤ 'z') || c.isDigit || isSpaceChar c then c else ' '

/-- Split into maximal runs of non-separator characters (accumulator holds the
current run reversed); used for `str.split()` and the sentence splitter. -/
def splitSepAux (sep : Char → Bool) : List Char → List Char → List (List Char)
  | [], cur => if cur.isEmpty then [] else [cur.reverse]
  | c :: rest, cur =>
    if sep c then
      (if cur.isEmpty then splitSepAux sep rest [] else cur.reverse :: splitSepAux sep rest [])
    else splitSepAux sep rest (c :: cur)

/-- `ThreadSummarizer._tokenize`. -/
def tokenize (s : String) : List String :=
  let s1 := strLower s
  let s2 := stripUrls s1.toList
  let s3 := s2.map keepToken
  ((splitSepAux isSpaceChar s3 []).map String.mk).filter
    (fun t => 2 < t.length && !stopwordsList.contains t)

def sentenceSep (c : Char) : Bool := c = '\n' || c = '.' || c = '!' || c = '?'

/-- `ThreadSummarizer._split_sentences`: replace `\r` by `\n` (the loop that
replaces each splitter by itself is a no-op in the source) and split on runs of
newline, dot, exclamation and question marks, keeping stripped non-empty parts. -/
def splitSentences (text : String) : List String :=
  let t := (replaceChar text '\r' '\n').toList
  (splitSepAux sentenceSep t []).filterMap (fun p =>
    let s := pyStrip (String.mk p)
    if 0 < s.length then some s else none)

/-- Does the `-{2,}Original Message-{2,}` alternative match at the head?  The
greedy dash run cannot backtrack usefully because the following literal starts
with a letter, so the whole leading dash run is consumed. -/
def matchOrigAt (l : List Char) : Bool :=
  let dashes := l.takeWhile (fun c => c = '-')
  let r1 := l.dropWhile (fun c => c = '-')
  decide (2 ≤ dashes.length) &&
    "original message".toList.isPrefixOf (r1.map Char.toLower) &&
    decide (2 ≤ ((r1.drop 16).takeWhile (fun c => c = '-')).length)

/-- Does the `From: ` alternative match at the head (case-insensitive)? -/
def matchFromAt (l : List Char) : Bool :=
  "from: ".toList.isPrefixOf (l.map Char.toLower)

/-- The prefix of the text before the first quote marker, i.e.
`re.split(marker_pattern, body)[0]`. -/
def truncAtGo : List Char → List Char
  | [] => []
  | c :: t => if matchOrigAt (c :: t) || matchFromAt (c :: t) then [] else c :: truncAtGo t

def signOffs : List String := ["sent from my", "pozdrav", "best regards", "kind regards"]

/-- `ThreadSummarizer._strip_quotes`. -/
def stripQuotes (body : String) : String :=
  let truncated := String.mk (truncAtGo body.toList)
  let kept := (pySplitChar truncated '\n').filter (fun ln =>
    let st := pyStrip ln
    !(strStarts st ">") && !(signOffs.any (fun so => strStarts (strLower st) so)))
  joinWith "\n" kept

/-! ## Extractive summary (`_extractive_summary`, `_mmr_select`)

The TF-IDF weights and cosine norms use `math.log` and `math.sqrt`, whose
irrational values have no exact rational embedding; they are abstracted as the
function parameters `logQ` and `sqrtQ`.  Every property proved below holds for
every choice of those functions. -/

abbrev SVec := List (String × ℚ)

def svLookup (v : SVec) (t : String) : ℚ :=
  match v.find? (fun p => p.1 == t) with
  | some p => p.2
  | none => 0

/-- The `cosine` helper of `_mmr_select`. -/
def cosine (sqrtQ : ℚ → ℚ) (a b : SVec) : ℚ :=
  if a.isEmpty || b.isEmpty then 0
  else
    let common := a.filter (fun p => b.any (fun q => q.1 == p.1))
    let num := (common.map (fun p => p.2 * svLookup b p.1)).sum
    let den1 := sqrtQ ((a.map (fun p => p.2 * p.2)).sum)
    let den2 := sqrtQ ((b.map (fun p => p.2 * p.2)).sum)
    if den1 = 0 || den2 = 0 then 0 else num / (den1 * den2)

/-- The inner `for j in selected` redundancy maximum. -/
def mmrRedundancy (sqrtQ : ℚ → ℚ) (vectors : List SVec) (i : Nat) (selected : List Nat) : ℚ :=
  selected.foldl (fun red j => max red (cosine sqrtQ (vectors.getD i []) (vectors.getD j []))) 0

/-- The `for i in list(candidates)` argmax scan: strict improvement over the
running best, starting from `best_i = -1` (`none`) and `best_score = -1.0`. -/
def mmrBest (sqrtQ : ℚ → ℚ) (vectors : List SVec) (centroid : SVec) (diversity : ℚ)
    (selected : List Nat) : List Nat → Option Nat × ℚ → Option Nat × ℚ
  | [], best => best
  | i :: rest, best =>
    let rel := cosine sqrtQ (vectors.getD i []) centroid
    let red := mmrRedundancy sqrtQ vectors i selected
    let score := (1 - diversity) * rel - diversity * red
    mmrBest sqrtQ vectors centroid diversity selected rest
      (if best.2 < score then (some i, score) else best)

/-- The `while candidates and len(selected) < k` loop; the fuel starts at the
candidate count, which bounds the number of iterations. -/
def mmrLoop (sqrtQ : ℚ → ℚ) (vectors : List SVec) (centroid : SVec) (k : Nat) (diversity : ℚ) :
    Nat → List Nat → List Nat → List Nat
  | 0, _, selected => selected
  | fuel + 1, candidates, selected =>
    if candidates.isEmpty || k ≤ selected.length then selected
    else
      match (mmrBest sqrtQ vectors centroid diversity selected candidates (none, -1)).1 with
      | none => selected
      | some i =>
        mmrLoop sqrtQ vectors centroid k diversity fuel (candidates.erase i) (selected ++ [i])

/-- `ThreadSummarizer._mmr_select`.  CPython iterates a set of the small ints
`0..n-1` in ascending order, which is how the candidate list is kept. -/
def mmrSelect (sqrtQ : ℚ → ℚ) (vectors : List SVec) (centroid : SVec) (k : Nat)
    (diversity : ℚ) : List Nat :=
  mmrLoop sqrtQ vectors centroid k diversity vectors.length (List.range vectors.length) []

/-- The candidate sentence collection of `_extractive_summary`: subjects plus
quote-stripped body sentences of length 40..220 from the last six emails. -/
def rawSentences (sortedEmails : List Email) : List String :=
  let recent :=
    if 6 < sortedEmails.length then sortedEmails.drop (sortedEmails.length - 6)
    else sortedEmails
  recent.foldl (fun acc em =>
    let subj := pyStrip em.subject
    let acc1 := if 0 < subj.length then acc ++ [subj] else acc
    let body := stripQuotes em.body
    acc1 ++ (splitSentences body).filter (fun s => 40 ≤ s.length && s.length ≤ 220)) []

/-- The normalisation key of the deduplication step: `s.strip().lower()`. -/
def normKey (s : String) : String := strLower (pyStrip s)

/-- The `seen`-set deduplication of `_extractive_summary`: keep the first
occurrence of each normalisation key, storing stripped sentences. -/
def dedupKeyedGo (seen : List String) : List String → List String
  | [] => []
  | s :: rest =>
    let k := normKey s
    if seen.contains k then dedupKeyedGo seen rest
    else pyStrip s :: dedupKeyedGo (seen ++ [k]) rest

def dedupKeyed (l : List String) : List String := dedupKeyedGo [] l

/-- First-occurrence deduplication (the key order of `Counter(toks)`). -/
def firstDedupGo (seen : List String) : List String → List String
  | [] => []
  | t :: rest =>
    if seen.contains t then firstDedupGo seen rest
    else t :: firstDedupGo (seen ++ [t]) rest

/-- Document frequency of a token over the tokenised sentences (the `vocab`
counter: each sentence contributes its token set once). -/
def docFreq (tokensList : List (List String)) (t : String) : Nat :=
  (tokensList.filter (fun toks => toks.contains t)).length

/-- The TF-IDF vector of one tokenised sentence;
`idf(t) = log((1+N)/(1+df(t))) + 1` with `logQ` for `math.log`. -/
def tfidfVec (logQ : ℚ → ℚ) (tokensList : List (List String)) (toks : List String) : SVec :=
  let n := tokensList.length
  (firstDedupGo [] toks).map (fun t =>
    let idf := logQ ((1 + (n : ℚ)) / (1 + (docFreq tokensList t : ℚ))) + 1
    (t, ((toks.count t : ℚ) / (max 1 toks.length : ℚ)) * idf))

/-- Add `x` to key `t` of the centroid counter. -/
def svBump (c : SVec) (t : String) (x : ℚ) : SVec :=
  if c.any (fun p => p.1 == t) then c.map (fun p => if p.1 == t then (p.1, p.2 + x) else p)
  else c ++ [(t, x)]

/-- The recency-weighted document centroid: vector `i` gets weight
`1 + (i / max(1, n)) * 0.5` (exact rationals stand in for the float weights;
no claim depends on their values). -/
def centroidOf (vectors : List SVec) : SVec :=
  vectors.enum.foldl (fun c iv =>
    let w : ℚ := 1 + ((iv.1 : ℚ) / (max 1 vectors.length : ℚ)) * (1 / 2)
    iv.2.foldl (fun c2 p => svBump c2 p.1 (p.2 * w)) c) []

/-- `ThreadSummarizer._extractive_summary`.  `int(len(sentences) * 0.2)` in
IEEE double arithmetic equals `len(sentences) / 5` rounded down for every
length (the relative rounding error of the product is below half an ulp and
never carries the value across an integer), so the embedding uses `Nat`
division. -/
def extractiveSummary (logQ sqrtQ : ℚ → ℚ) (sortedEmails : List Email) : List String :=
  let sentences := dedupKeyed (rawSentences sortedEmails)
  if sentences.isEmpty then []
  else
    let tokensList := sentences.map tokenize
    let vectors := tokensList.map (tfidfVec logQ tokensList)
    let centroid := centroidOf vectors
    let k := min 6 (max 2 (sentences.length / 5))
    let selectedIdx := mmrSelect sqrtQ vectors centroid k (13 / 20)
    let sortedIdx := pySorted (fun a b => decide (a ≤ b)) selectedIdx
    sortedIdx.filterMap (fun i => sentences[i]?)

/-! ## The rule-based pipeline (`_summarize_rule_based`) -/

structure RuleSummary where
  method : String
  threadName : String
  metadata : Metadata
  executiveSummary : String
  keyEvents : List String
  stakeholders : List String
  actionItems : List String
  currentStatus : String
  issuesRisks : List String
  conversationInsights : ConversationInsights
  priority : PriorityScore
  replyTemplate : String
  triage : TriageResult
deriving DecidableEq, Repr

/-- `ThreadSummarizer._summarize_rule_based`, the non-AI path of
`summarize_thread`.  `now` models the `datetime.now()` readings of the
sub-steps; `logQ`/`sqrtQ` abstract the float transcendentals of the extractive
summary. -/
def summarizeRuleBased (logQ sqrtQ : ℚ → ℚ) (threadEmails : List Email) (metadata : Metadata)
    (now : DT) : RuleSummary :=
  let sortedEmails := pySorted (fun a b => DT.le a.receivedTime b.receivedTime) threadEmails
  let events := extractEvents sortedEmails
  let stakeholders := extractStakeholders sortedEmails
  let actionItems := extractActionItems sortedEmails
  let issues := extractIssues sortedEmails
  let insights := extractConversationInsights sortedEmails now
  let priority := calculatePriorityScore sortedEmails metadata now
  let extractive := extractiveSummary logQ sqrtQ sortedEmails
  let execSummary0 := createExecutiveSummary metadata events stakeholders issues
  let execSummary :=
    if extractive.isEmpty then execSummary0
    else execSummary0 ++ " " ++ joinWith " " (extractive.take 3)
  let currentStatus := determineStatus sortedEmails metadata now
  let replyTemplate := generateReplyTemplate insights metadata
  let triage := buildTriage sortedEmails metadata insights issues now
  ⟨"rule_based", metadata.threadName, metadata, execSummary, events, stakeholders, actionItems,
    currentStatus, issues, insights, priority, replyTemplate, triage⟩

/-! ## Helper lemmas -/

lemma clamp_level (t : Int) :
    0 ≤ min 100 (max 0 t) ∧ min 100 (max 0 t) ≤ 100 ∧
      (if 70 ≤ min 100 (max 0 t) then "Critical"
       else if 50 ≤ min 100 (max 0 t) then "High"
       else if 30 ≤ min 100 (max 0 t) then "Medium" else "Low") =
        specPriorityLevel (min 100 (max 0 t)) := by
  have h0 : (0 : Int) ≤ min 100 (max 0 t) := le_min (by norm_num) (le_max_left 0 t)
  have h1 : min 100 (max 0 t) ≤ 100 := min_le_left _ _
  refine ⟨h0, h1, ?_⟩
  unfold specPriorityLevel
  generalize min 100 (max 0 t) = X at *
  split_ifs <;> first | rfl | (exfalso; omega)

lemma nat_clamp_level (t : Nat) :
    min t 100 ≤ 100 ∧
      (if 70 ≤ min t 100 then "critical"
       else if 50 ≤ min t 100 then "high"
       else if 30 ≤ min t 100 then "medium" else "low") = specUrgencyLevel (min t 100) := by
  refine ⟨min_le_right _ _, ?_⟩
  unfold specUrgencyLevel
  generalize min t 100 = X
  split_ifs <;> first | rfl | (exfalso; omega)

lemma foldl_weight_sum (p : String → Bool) (l : List (String × Nat)) (acc : Nat) :
    l.foldl (fun a kw => if p kw.1 then a + kw.2 else a) acc =
      acc + ((l.filter (fun kw => p kw.1)).map (·.2)).sum := by
  induction l generalizing acc with
  | nil => simp
  | cons hd tl ih =>
    by_cases hp : p hd.1
    · simp [hp, ih]
      omega
    · simp [hp, ih]

/-! ## Claim theorems -/

/-- C1: for every message list and metadata record, the priority score lies in
[0, 100] and its level matches the fixed threshold table (<30 Low, <50 Medium,
<70 High, otherwise Critical); for every message text, the urgency score lies
in [0, 100] (it is a `Nat`) and its level matches the same table in lowercase;
a score of exactly 30 maps to Medium, not Low — no off-by-one at the boundary. -/
theorem scores_in_range_and_levels_match_thresholds :
    (∀ (sortedEmails : List Email) (metadata : Metadata) (now : DT),
      0 ≤ (calculatePriorityScore sortedEmails metadata now).score ∧
      (calculatePriorityScore sortedEmails metadata now).score ≤ 100 ∧
      (calculatePriorityScore sortedEmails metadata now).priority =
        specPriorityLevel (calculatePriorityScore sortedEmails metadata now).score) ∧
    (∀ text : String,
      (calculateUrgency text).score ≤ 100 ∧
      (calculateUrgency text).level = specUrgencyLevel (calculateUrgency text).score) ∧
    specPriorityLevel 30 = "Medium" := by
  refine ⟨fun sortedEmails metadata now => ?_, fun text => ?_, by decide⟩
  · rcases hl : sortedEmails.getLast? with _ | lastEmail
    · unfold calculatePriorityScore
      rw [hl]
      refine ⟨le_refl 0, ?_, ?_⟩
      · show (0 : Int) ≤ 100
        norm_num
      · show "Low" = specPriorityLevel 0
        decide
    · unfold calculatePriorityScore
      rw [hl]
      exact clamp_level _
  · unfold calculateUrgency
    exact nat_clamp_level _

lemma buildTriage_escalate (sortedEmails : List Email) (metadata : Metadata)
    (insights : ConversationInsights) (issues : List String) (now : DT) :
    (buildTriage sortedEmails metadata insights issues now).escalate =
      (metadata.isUrgent || metadata.hasDelay ||
        (match sortedEmails.getLast? with
         | some lastEmail =>
           decide (2 ≤ daysBetween now lastEmail.receivedTime) && insights.responseNeeded
         | none => false)) := by
  unfold buildTriage
  rcases hl : sortedEmails.getLast? with _ | lastEmail
  · simp
  · dsimp only
    by_cases hc : 2 ≤ daysBetween now lastEmail.receivedTime ∧ insights.responseNeeded = true
    · rw [if_pos hc]
      simp [hc.1, hc.2]
    · rw [if_neg hc]
      have hfalse : (decide (2 ≤ daysBetween now lastEmail.receivedTime) &&
          insights.responseNeeded) = false := by
        by_cases hd2 : 2 ≤ daysBetween now lastEmail.receivedTime
        · by_cases hr : insights.responseNeeded = true
          · exact absurd ⟨hd2, hr⟩ hc
          · simp [Bool.not_eq_true] at hr
            simp [hr]
        · simp [hd2]
      simp [hfalse]

/-- C2: whenever the metadata urgent flag is set, the triage result escalates,
for all thread contents; in general the escalate flag is true exactly when the
urgent or delay flag is set, or the last message is at least two days old and
the insight extractor's `response_needed` signal holds. -/
theorem escalate_iff_urgent_delay_or_stale_response (sortedEmails : List Email)
    (metadata : Metadata) (issues : List String) (now : DT) :
    (metadata.isUrgent = true →
      (buildTriage sortedEmails metadata (extractConversationInsights sortedEmails now) issues
        now).escalate = true) ∧
    (buildTriage sortedEmails metadata (extractConversationInsights sortedEmails now) issues
        now).escalate =
      (metadata.isUrgent || metadata.hasDelay ||
        (match sortedEmails.getLast? with
         | some lastEmail =>
           decide (2 ≤ daysBetween now lastEmail.receivedTime) &&
             (extractConversationInsights sortedEmails now).responseNeeded
         | none => false)) := by
  refine ⟨?_, buildTriage_escalate _ _ _ _ _⟩
  intro hu
  rw [buildTriage_escalate, hu]
  simp

/-- C2 witness: a concrete urgent thread (empty contents) escalates. -/
theorem escalate_iff_urgent_delay_or_stale_response_witness :
    (Metadata.mk "T" 0 0 0 0 true false false false).isUrgent = true ∧
    (buildTriage [] (Metadata.mk "T" 0 0 0 0 true false false false)
      (extractConversationInsights [] (mkDT 2024 1 1 10 0)) [] (mkDT 2024 1 1 10 0)).escalate =
      true :=
  ⟨rfl, (escalate_iff_urgent_delay_or_stale_response [] _ [] (mkDT 2024 1 1 10 0)).1 rfl⟩

lemma hasSubList_nil (l : List Char) : hasSubList [] l = true := by
  induction l with
  | nil => rfl
  | cons c t ih => simp [hasSubList, ih]

lemma hasSubList_append_left (n b : List Char) (h : hasSubList n b = true) (a : List Char) :
    hasSubList n (a ++ b) = true := by
  induction a with
  | nil => simpa
  | cons c t ih => simp [hasSubList, ih]

lemma hasSubList_append_right (n a : List Char) (h : hasSubList n a = true) (b : List Char) :
    hasSubList n (a ++ b) = true := by
  induction a with
  | nil =>
    simp [hasSubList] at h
    subst h
    exact hasSubList_nil b
  | cons c t ih =>
    simp only [hasSubList, Bool.or_eq_true] at h ⊢
    rcases h with h | h
    · left
      rw [List.isPrefixOf_iff_prefix] at h ⊢
      exact h.trans (List.prefix_append _ _)
    · right
      exact ih h

lemma hasSub_append_left (a b n : String) (h : hasSub b n = true) : hasSub (a ++ b) n = true := by
  unfold hasSub at *
  rw [show (a ++ b).toList = a.toList ++ b.toList from String.data_append a b]
  exact hasSubList_append_left _ _ h _

lemma hasSub_append_right (a b n : String) (h : hasSub a n = true) : hasSub (a ++ b) n = true := by
  unfold hasSub at *
  rw [show (a ++ b).toList = a.toList ++ b.toList from String.data_append a b]
  exact hasSubList_append_right _ _ h _

lemma hasSub_joinWith_head (sep n s : String) (rest : List String) (h : hasSub s n = true) :
    hasSub (joinWith sep (s :: rest)) n = true := by
  cases rest with
  | nil => exact h
  | cons r more => exact hasSub_append_right _ _ _ (hasSub_append_right _ _ _ h)

lemma hasSub_assoc3 (x y z r n : String) (h : hasSub (x ++ y ++ z) n = true) :
    hasSub (x ++ (y ++ (z ++ r))) n = true := by
  have hre : x ++ (y ++ (z ++ r)) = (x ++ y ++ z) ++ r := by
    simp [String.append_assoc]
  rw [hre]
  exact hasSub_append_right _ _ _ h

/-- Evaluating the rule-based pipeline on an empty thread: every sub-step of
the source runs and returns its minimal value; nothing raises (the embedding
is a total function). -/
lemma summarizeRuleBased_empty (logQ sqrtQ : ℚ → ℚ) (metadata : Metadata) (now : DT) :
    summarizeRuleBased logQ sqrtQ [] metadata now =
      ⟨"rule_based", metadata.threadName, metadata,
        createExecutiveSummary metadata [] [] [], [], [], [], "Unknown", [],
        ⟨[], [], false, none, none, none⟩, ⟨0, "Low", []⟩,
        "No response required at this time.",
        ⟨[], false, metadata.isUrgent || metadata.hasDelay, "Monitor thread"⟩⟩ := rfl

/-- C3: analyzing an empty message list does not raise (the embedded pipeline
is total) and returns priority score 0 with level Low, a triage with no
actions, and an executive summary stating the email count — hence "0 emails"
for empty-thread metadata. -/
theorem empty_thread_minimal_result (logQ sqrtQ : ℚ → ℚ) (metadata : Metadata) (now : DT)
    (h : metadata.emailCount = 0) :
    (summarizeRuleBased logQ sqrtQ [] metadata now).priority.score = 0 ∧
    (summarizeRuleBased logQ sqrtQ [] metadata now).priority.priority = "Low" ∧
    (summarizeRuleBased logQ sqrtQ [] metadata now).triage.actions = [] ∧
    hasSub (summarizeRuleBased logQ sqrtQ [] metadata now).executiveSummary
      "with 0 emails" = true := by
  rw [summarizeRuleBased_empty]
  refine ⟨rfl, rfl, rfl, ?_⟩
  show hasSub (createExecutiveSummary metadata [] [] []) "with 0 emails" = true
  have hs1 : hasSub ("Email thread " ++ apos ++ metadata.threadName ++ apos ++ " with " ++
      toString metadata.emailCount ++ " emails over " ++ toString metadata.durationDays ++
      " days involving " ++ toString metadata.participantCount ++ " participants.")
      "with 0 emails" = true := by
    rw [h]
    simp only [String.append_assoc]
    apply hasSub_append_left
    apply hasSub_append_left
    apply hasSub_append_left
    apply hasSub_append_left
    exact hasSub_assoc3 _ _ _ _ _ (by decide)
  unfold createExecutiveSummary
  dsimp only
  split_ifs <;> exact hasSub_joinWith_head _ _ _ _ hs1

/-- C3 witness: the theorem applied to concrete empty-thread metadata. -/
theorem empty_thread_minimal_result_witness :
    (Metadata.mk "Quote request" 0 0 0 0 false false false false).emailCount = 0 ∧
    ((summarizeRuleBased (fun _ => 0) (fun _ => 0) []
        (Metadata.mk "Quote request" 0 0 0 0 false false false false)
        (mkDT 2024 1 1 10 0)).priority.score = 0 ∧
      (summarizeRuleBased (fun _ => 0) (fun _ => 0) []
        (Metadata.mk "Quote request" 0 0 0 0 false false false false)
        (mkDT 2024 1 1 10 0)).priority.priority = "Low" ∧
      (summarizeRuleBased (fun _ => 0) (fun _ => 0) []
        (Metadata.mk "Quote request" 0 0 0 0 false false false false)
        (mkDT 2024 1 1 10 0)).triage.actions = [] ∧
      hasSub (summarizeRuleBased (fun _ => 0) (fun _ => 0) []
        (Metadata.mk "Quote request" 0 0 0 0 false false false false)
        (mkDT 2024 1 1 10 0)).executiveSummary "with 0 emails" = true) :=
  ⟨rfl, empty_thread_minimal_result (fun _ => 0) (fun _ => 0) _ (mkDT 2024 1 1 10 0) rfl⟩

lemma if_add_int (c : Prop) [Decidable c] (x k : Int) :
    (if c then x + k else x) = x + (if c then k else 0) := by
  split <;> simp

lemma if_add_sub_int (a b : Prop) [Decidable a] [Decidable b] (x : Int) :
    (if a then x + 20 else if b then x - 10 else x) =
      x + (if a then 20 else if b then -10 else 0) := by
  split
  · rfl
  · split <;> omega

/-- C4 (amended): the priority score is the clamp of a sum in which the
response factor contributes exactly 25 precisely when the scorer's own
condition holds — a question mark or one of the three phrases
"please confirm", "can you", "need your" in the lowercased final body.  This
is a strict subset of the §4.4 indicator set used by the insight extractor
(see the counterexample). -/
theorem priority_adds_25_iff_scorer_condition (sortedEmails : List Email) (metadata : Metadata)
    (now : DT) (lastEmail : Email) (h : sortedEmails.getLast? = some lastEmail) :
    (calculatePriorityScore sortedEmails metadata now).score =
      min 100 (max 0
        ((if metadata.isUrgent then (30 : Int) else 0) +
          (if scorerRespCond (strLower lastEmail.body) then (25 : Int) else 0) +
          (if daysBetween now lastEmail.receivedTime < 2 then (20 : Int)
           else if 7 < daysBetween now lastEmail.receivedTime then -10 else 0) +
          (if 3 < metadata.participantCount then (10 : Int) else 0) +
          (if metadata.hasDelay then (15 : Int) else 0) +
          (if 10 < metadata.emailCount then (10 : Int) else 0) +
          (if metadata.isCustoms then (5 : Int) else 0) +
          (if metadata.isTransport then (5 : Int) else 0))) ∧
    ((if scorerRespCond (strLower lastEmail.body) then (25 : Int) else 0) = 25 ↔
      scorerRespCond (strLower lastEmail.body) = true) := by
  constructor
  · unfold calculatePriorityScore
    rw [h]
    dsimp only
    simp only [if_add_sub_int, if_add_int]
  · by_cases hc : scorerRespCond (strLower lastEmail.body) = true
    · simp [hc]
    · simp [hc]

/-- The concrete last message for the C4 analysis: its body matches the §4.4
indicator "please provide" but none of the three scorer phrases. -/
def c4Email : Email :=
  ⟨"alice", none, "docs", "Please provide the documents", mkDT 2024 1 1 10 0⟩

/-- C4 witness: the amended theorem applied to a concrete one-message thread. -/
theorem priority_adds_25_iff_scorer_condition_witness :
    [c4Email].getLast? = some c4Email ∧
    ((if scorerRespCond (strLower c4Email.body) then (25 : Int) else 0) = 25 ↔
      scorerRespCond (strLower c4Email.body) = true) :=
  ⟨rfl, (priority_adds_25_iff_scorer_condition [c4Email]
    (Metadata.mk "T" 1 0 0 0 false false false false) (mkDT 2024 1 4 10 0) c4Email rfl).2⟩

/-- C4 counterexample: the final body "Please provide the documents" carries
the §4.4 response signal, yet the scorer adds nothing — with every other
factor zero the score is 0, not 25, refuting the claimed equivalence. -/
theorem priority_adds_25_iff_scorer_condition_counterexample :
    responseNeededSignal (strLower c4Email.body) = true ∧
    (calculatePriorityScore [c4Email] (Metadata.mk "T" 1 0 0 0 false false false false)
      (mkDT 2024 1 4 10 0)).score = 0 ∧
    scorerRespCond (strLower c4Email.body) = false :=
  ⟨by decide, by decide, by decide⟩

/-- The weekday names by index (the entries of `weekdayEnum`). -/
def weekdayName : Nat → String
  | 0 => "monday"
  | 1 => "tuesday"
  | 2 => "wednesday"
  | 3 => "thursday"
  | 4 => "friday"
  | 5 => "saturday"
  | _ => "sunday"

/-- C5 (amended): for a line containing a weekday name and none of the
higher-priority patterns ('eod', 'tomorrow', either explicit-date regex), the
inferred due date is the next occurrence of that weekday after the base day
(today excluded, wrapping to +7 when the computed delta is 0) — at the same
time of day as the base, not at 17:00, which only the other branches set. -/
theorem weekday_due_date_next_occurrence (text : String) (base : DT) (idx : Nat)
    (hidx : idx < 7)
    (heod : hasSub (strLower text) "eod" = false)
    (htom : hasSub (strLower text) "tomorrow" = false)
    (hre1 : re1Search false (strLower text).toList = none)
    (hre2 : re2Search false (strLower text).toList = none)
    (hfound : hasSubList (weekdayName idx).toList (strLower text).toList = true)
    (hmin : ∀ j, j < idx →
      hasSubList (weekdayName j).toList (strLower text).toList = false) :
    parseDueDate text base =
      some (base.addDays
        (if ((idx : Int) - base.weekday).emod 7 = 0 then 7
         else ((idx : Int) - base.weekday).emod 7)) := by
  have hfind : findWeekday (strLower text).toList weekdayEnum = some idx := by
    have e0 := hmin 0
    have e1 := hmin 1
    have e2 := hmin 2
    have e3 := hmin 3
    have e4 := hmin 4
    have e5 := hmin 5
    interval_cases idx <;> simp_all [findWeekday, weekdayEnum, weekdayName]
  unfold parseDueDate
  simp only [heod, htom, hre1, hre2, hfind, Bool.false_eq_true, if_false]

/-- C5 witness: "Please confirm by Friday" analyzed with base Monday
2024-01-01 10:00 satisfies every hypothesis with idx = 4 (friday). -/
theorem weekday_due_date_next_occurrence_witness :
    (4 : Nat) < 7 ∧
    hasSub (strLower "Please confirm by Friday") "eod" = false ∧
    hasSub (strLower "Please confirm by Friday") "tomorrow" = false ∧
    re1Search false (strLower "Please confirm by Friday").toList = none ∧
    re2Search false (strLower "Please confirm by Friday").toList = none ∧
    hasSubList (weekdayName 4).toList (strLower "Please confirm by Friday").toList = true ∧
    (∀ j, j < 4 →
      hasSubList (weekdayName j).toList (strLower "Please confirm by Friday").toList = false) ∧
    parseDueDate "Please confirm by Friday" (mkDT 2024 1 1 10 0) =
      some ((mkDT 2024 1 1 10 0).addDays
        (if ((4 : Int) - (mkDT 2024 1 1 10 0).weekday).emod 7 = 0 then 7
         else ((4 : Int) - (mkDT 2024 1 1 10 0).weekday).emod 7)) :=
  ⟨by decide, by decide, by decide, by decide, by decide, by decide, by decide,
    weekday_due_date_next_occurrence "Please confirm by Friday" (mkDT 2024 1 1 10 0) 4
      (by decide) (by decide) (by decide) (by decide) (by decide) (by decide) (by decide)⟩

/-- C5 counterexample: on Monday 2024-01-01 10:00 the inferred due date for
"Please confirm by Friday" is the upcoming Friday 2024-01-05 at 10:00 — the
base's time of day, not 17:00 as the claim states. -/
theorem weekday_due_date_not_at_17 :
    parseDueDate "Please confirm by Friday" (mkDT 2024 1 1 10 0) =
      some (mkDT 2024 1 5 10 0) ∧
    (mkDT 2024 1 5 10 0).hour = 10 ∧ decide ((mkDT 2024 1 5 10 0).hour = 17) = false :=
  ⟨by decide, by decide, by decide⟩

/-- C8 (amended): the source reads the wall clock internally via
`datetime.now()` rather than taking it as a parameter; with that reading
modelled as the explicit `now`, the pipeline is a pure function of
(messages, metadata, now), and the priority scorer depends on the clock only
through the whole-day age of the last message: two clock readings with equal
day-age give identical priority output.  Runs at different wall-clock times
can differ (see the counterexample). -/
theorem priority_depends_on_clock_only_via_day_age (sortedEmails : List Email)
    (metadata : Metadata) (now now' : DT) (lastEmail : Email)
    (h : sortedEmails.getLast? = some lastEmail)
    (hdays : daysBetween now lastEmail.receivedTime =
      daysBetween now' lastEmail.receivedTime) :
    calculatePriorityScore sortedEmails metadata now =
      calculatePriorityScore sortedEmails metadata now' := by
  unfold calculatePriorityScore
  rw [h]
  dsimp only
  rw [hdays]

/-- The concrete one-message thread of the C8 analysis. -/
def c8Email : Email := ⟨"alice", none, "", "hello there", mkDT 2024 1 1 10 0⟩

def c8Meta : Metadata := ⟨"T", 1, 1, 0, 0, false, false, false, false⟩

/-- C8 witness: two distinct clock readings on the same day (10:00 and 15:00,
both 3 days after the last message) give identical priority output. -/
theorem priority_depends_on_clock_only_via_day_age_witness :
    [c8Email].getLast? = some c8Email ∧
    daysBetween (mkDT 2024 1 4 10 0) c8Email.receivedTime =
      daysBetween (mkDT 2024 1 4 15 0) c8Email.receivedTime ∧
    calculatePriorityScore [c8Email] c8Meta (mkDT 2024 1 4 10 0) =
      calculatePriorityScore [c8Email] c8Meta (mkDT 2024 1 4 15 0) :=
  ⟨rfl, by decide,
    priority_depends_on_clock_only_via_day_age [c8Email] c8Meta (mkDT 2024 1 4 10 0)
      (mkDT 2024 1 4 15 0) c8Email rfl (by decide)⟩

/-- C8 counterexample: the same messages and metadata analyzed at two
wall-clock times give different records — one day after the last message the
recency factor adds 20, ten days after it subtracts 10 — so a second run is
not byte-identical unless the clock is held fixed. -/
theorem pipeline_differs_across_wall_clock_times :
    (summarizeRuleBased (fun _ => 0) (fun _ => 0) [c8Email] c8Meta
      (mkDT 2024 1 2 10 0)).priority.score = 20 ∧
    (summarizeRuleBased (fun _ => 0) (fun _ => 0) [c8Email] c8Meta
      (mkDT 2024 1 11 10 0)).priority.score = 0 ∧
    decide (summarizeRuleBased (fun _ => 0) (fun _ => 0) [c8Email] c8Meta (mkDT 2024 1 2 10 0) =
      summarizeRuleBased (fun _ => 0) (fun _ => 0) [c8Email] c8Meta (mkDT 2024 1 11 10 0)) =
      false :=
  ⟨by decide, by decide, by decide⟩

/-- C9 (amended): the key-point list is deduplicated (via `set`) and capped at
5, so it holds no two equal entries; the triage actions list is capped at 8
but is NOT deduplicated — identical actionable lines yield repeated entries
(see the counterexample); every list field is a total list value (empty, never
null, when there is nothing to report). -/
theorem key_points_nodup_actions_capped (sortedEmails : List Email) (metadata : Metadata)
    (insights : ConversationInsights) (issues : List String) (now : DT) :
    (extractConversationInsights sortedEmails now).keyPoints.Nodup ∧
    (extractConversationInsights sortedEmails now).keyPoints.length ≤ 5 ∧
    (buildTriage sortedEmails metadata insights issues now).actions.length ≤ 8 := by
  refine ⟨?_, ?_, ?_⟩
  · unfold extractConversationInsights
    rcases hl : sortedEmails.getLast? with _ | lastEmail
    · simp
    · dsimp only
      exact List.Nodup.sublist (List.take_sublist _ _) (List.nodup_dedup _)
  · unfold extractConversationInsights
    rcases hl : sortedEmails.getLast? with _ | lastEmail
    · simp
    · dsimp only
      rw [List.length_take]
      exact min_le_left _ _
  · unfold buildTriage
    rcases hl : sortedEmails.getLast? with _ | lastEmail <;>
      (dsimp only
       rw [List.length_take]
       exact min_le_left _ _)

/-- The two concrete messages of the C9 analysis: the same sender sends the
same actionable line twice. -/
def c9Email1 : Email :=
  ⟨"alice", some "alice@x.com", "", "Please confirm the order", mkDT 2024 1 1 10 0⟩

def c9Email2 : Email :=
  ⟨"alice", some "alice@x.com", "", "Please confirm the order", mkDT 2024 1 2 10 0⟩

def c9Meta : Metadata := ⟨"T", 2, 1, 1, 0, false, false, false, false⟩

/-- C9 counterexample: two messages carrying the same actionable line produce
two identical triage actions — the actions list is not deduplicated by
normalized text (the key points, by contrast, go through `set`). -/
theorem triage_actions_not_deduplicated :
    ((summarizeRuleBased (fun _ => 0) (fun _ => 0) [c9Email1, c9Email2] c9Meta
        (mkDT 2024 1 3 10 0)).triage.actions.map (fun a => a.description)) =
      ["Please confirm the order", "Please confirm the order"] ∧
    decide (((summarizeRuleBased (fun _ => 0) (fun _ => 0) [c9Email1, c9Email2] c9Meta
        (mkDT 2024 1 3 10 0)).triage.actions.map (fun a => a.description)).Nodup) = false :=
  ⟨by decide, by decide⟩

/-- C10: on the rule-based path the executive summary is exactly the
rule-based overview when no sentence was selected, and otherwise the overview
followed by the first (at most 3) MMR-selected sentences; the later selected
sentences never enter the text. -/
theorem exec_summary_appends_first_three (logQ sqrtQ : ℚ → ℚ) (threadEmails : List Email)
    (metadata : Metadata) (now : DT) :
    (summarizeRuleBased logQ sqrtQ threadEmails metadata now).executiveSummary =
      (let sortedEmails := pySorted (fun a b => DT.le a.receivedTime b.receivedTime) threadEmails
       let extractive := extractiveSummary logQ sqrtQ sortedEmails
       let overview := createExecutiveSummary metadata (extractEvents sortedEmails)
         (extractStakeholders sortedEmails) (extractIssues sortedEmails)
       if extractive.isEmpty then overview
       else overview ++ " " ++ joinWith " " (extractive.take 3)) ∧
    ((extractiveSummary logQ sqrtQ
        (pySorted (fun a b => DT.le a.receivedTime b.receivedTime) threadEmails)).take
      3).length ≤ 3 :=
  ⟨rfl, by rw [List.length_take]; exact min_le_left _ _⟩

/-! ## Lemmas for the extractive summarizer (C6) -/

lemma pyInsert_perm {α : Type} (le : α → α → Bool) (x : α) (l : List α) :
    (pyInsert le x l).Perm (x :: l) := by
  induction l with
  | nil => simp [pyInsert]
  | cons y t ih =>
    unfold pyInsert
    split
    · exact (ih.cons y).trans (List.Perm.swap x y t)
    · exact List.Perm.refl _

lemma pySortedAux_perm {α : Type} (le : α → α → Bool) (l : List α) :
    ∀ acc : List α, (pySortedAux le acc l).Perm (acc ++ l) := by
  induction l with
  | nil => intro acc; simp [pySortedAux]
  | cons x t ih =>
    intro acc
    unfold pySortedAux
    have h1 := ih (pyInsert le x acc)
    have h2 : (pyInsert le x acc ++ t).Perm (acc ++ x :: t) :=
      ((pyInsert_perm le x acc).append_right t).trans List.perm_middle.symm
    exact h1.trans h2

lemma pySorted_perm {α : Type} (le : α → α → Bool) (l : List α) :
    (pySorted le l).Perm l := by
  simpa using pySortedAux_perm le l []

lemma mmrBest_mem (sqrtQ : ℚ → ℚ) (vectors : List SVec) (centroid : SVec) (diversity : ℚ)
    (selected : List Nat) :
    ∀ (cands : List Nat) (best : Option Nat × ℚ) (i : Nat),
      (mmrBest sqrtQ vectors centroid diversity selected cands best).1 = some i →
      best.1 = some i ∨ i ∈ cands := by
  intro cands
  induction cands with
  | nil =>
    intro best i h
    exact Or.inl h
  | cons c t ih =>
    intro best i h
    unfold mmrBest at h
    rcases ih _ i h with h' | h'
    · split at h'
      · simp only at h'
        rw [Option.some.injEq] at h'
        subst h'
        exact Or.inr (List.mem_cons_self _ _)
      · exact Or.inl h'
    · exact Or.inr (List.mem_cons_of_mem _ h')

lemma mmrLoop_spec (sqrtQ : ℚ → ℚ) (vectors : List SVec) (centroid : SVec) (k : Nat)
    (diversity : ℚ) (n : Nat) :
    ∀ (fuel : Nat) (cands selected : List Nat),
      cands.Nodup → selected.Nodup → (∀ x ∈ cands, x ∉ selected) →
      (∀ x ∈ cands, x < n) → (∀ x ∈ selected, x < n) →
      ((mmrLoop sqrtQ vectors centroid k diversity fuel cands selected).Nodup ∧
        (∀ x ∈ mmrLoop sqrtQ vectors centroid k diversity fuel cands selected, x < n) ∧
        (mmrLoop sqrtQ vectors centroid k diversity fuel cands selected).length ≤
          max selected.length k) := by
  intro fuel
  induction fuel with
  | zero =>
    intro cands selected _ h2 _ _ h5
    exact ⟨h2, h5, Nat.le_max_left _ _⟩
  | succ fuel ih =>
    intro cands selected h1 h2 h3 h4 h5
    unfold mmrLoop
    split
    · exact ⟨h2, h5, Nat.le_max_left _ _⟩
    · rename_i hcond
      rcases hbest : (mmrBest sqrtQ vectors centroid diversity selected cands (none, -1)).1
        with _ | i
      · exact ⟨h2, h5, Nat.le_max_left _ _⟩
      · have hi : i ∈ cands := by
          rcases mmrBest_mem sqrtQ vectors centroid diversity selected cands (none, -1) i hbest
            with h | h
          · simp at h
          · exact h
        have hinotsel : i ∉ selected := h3 i hi
        have hlen : selected.length < k := by
          rcases Nat.lt_or_ge selected.length k with h | h
          · exact h
          · exact absurd (by simp [h, Bool.or_eq_true]) hcond
        have hrec := ih (cands.erase i) (selected ++ [i]) (h1.erase i)
          (by
            rw [List.nodup_append]
            exact ⟨h2, List.nodup_singleton i, by
              intro x hx hx'
              rw [List.mem_singleton] at hx'
              subst hx'
              exact hinotsel hx⟩)
          (by
            intro x hx
            have hxc := List.mem_of_mem_erase hx
            have hxne : x ≠ i := (List.Nodup.mem_erase_iff h1).mp hx |>.1
            rw [List.mem_append, List.mem_singleton]
            rintro (hxs | rfl)
            · exact h3 x hxc hxs
            · exact hxne rfl)
          (fun x hx => h4 x (List.mem_of_mem_erase hx))
          (by
            intro x hx
            rw [List.mem_append, List.mem_singleton] at hx
            rcases hx with hx | rfl
            · exact h5 x hx
            · exact h4 x hi)
        refine ⟨hrec.1, hrec.2.1, ?_⟩
        have := hrec.2.2
        rw [List.length_append, List.length_singleton] at this
        show (mmrLoop sqrtQ vectors centroid k diversity fuel (cands.erase i)
          (selected ++ [i])).length ≤ max selected.length k
        omega

lemma mmrSelect_spec (sqrtQ : ℚ → ℚ) (vectors : List SVec) (centroid : SVec) (k : Nat)
    (diversity : ℚ) :
    (mmrSelect sqrtQ vectors centroid k diversity).Nodup ∧
    (∀ x ∈ mmrSelect sqrtQ vectors centroid k diversity, x < vectors.length) ∧
    (mmrSelect sqrtQ vectors centroid k diversity).length ≤ k := by
  have h := mmrLoop_spec sqrtQ vectors centroid k diversity vectors.length vectors.length
    (List.range vectors.length) [] (List.nodup_range _) List.nodup_nil
    (by simp) (by simp) (by simp)
  refine ⟨h.1, h.2.1, ?_⟩
  have := h.2.2
  simpa [mmrSelect] using this

lemma dropWhile_idem (p : Char → Bool) (l : List Char) :
    (l.dropWhile p).dropWhile p = l.dropWhile p := by
  induction l with
  | nil => rfl
  | cons c t ih =>
    by_cases h : p c
    · simp only [List.dropWhile_cons, h, if_true]
      exact ih
    · simp [List.dropWhile_cons, h]

lemma head?_dropWhile (p : Char → Bool) (l : List Char) :
    ∀ x, (l.dropWhile p).head? = some x → p x = false := by
  induction l with
  | nil =>
    intro x h
    simp at h
  | cons c t ih =>
    intro x h
    rw [List.dropWhile_cons] at h
    split at h
    · exact ih x h
    · rw [List.head?_cons, Option.some.injEq] at h
      subst h
      rename_i hc
      exact Bool.not_eq_true _ ▸ hc

lemma getLast?_dropWhile (p : Char → Bool) (l : List Char) :
    l.dropWhile p = [] ∨ (l.dropWhile p).getLast? = l.getLast? := by
  induction l with
  | nil => exact Or.inl rfl
  | cons c t ih =>
    rw [List.dropWhile_cons]
    split
    · by_cases ht : t.dropWhile p = []
      · exact Or.inl ht
      · rcases ih with h | h
        · exact absurd h ht
        · right
          rw [h]
          rcases t with _ | ⟨y, t'⟩
          · simp at ht
          · rw [List.getLast?_cons_cons]
    · exact Or.inr rfl

lemma dropWhile_eq_self_of_head (p : Char → Bool) (l : List Char)
    (h : ∀ x, l.head? = some x → p x = false) : l.dropWhile p = l := by
  cases l with
  | nil => rfl
  | cons c t =>
    rw [List.dropWhile_cons, h c rfl]
    simp

lemma pyStripList_idem (l : List Char) : pyStripList (pyStripList l) = pyStripList l := by
  unfold pyStripList
  set a := l.dropWhile isSpaceChar with ha
  set b := a.reverse.dropWhile isSpaceChar with hb
  have hb2 : b.reverse.dropWhile isSpaceChar = b.reverse := by
    apply dropWhile_eq_self_of_head
    intro x hx
    rw [List.head?_reverse] at hx
    rcases getLast?_dropWhile isSpaceChar a.reverse with h | h
    · rw [← hb] at h
      rw [h] at hx
      simp at hx
    · rw [← hb] at h
      rw [h, List.getLast?_reverse] at hx
      rw [ha] at hx
      exact head?_dropWhile isSpaceChar l x hx
  rw [hb2, List.reverse_reverse, hb, dropWhile_idem]

lemma pyStrip_idem (s : String) : pyStrip (pyStrip s) = pyStrip s := by
  unfold pyStrip
  rw [show (String.mk (pyStripList s.toList)).toList = pyStripList s.toList from rfl,
    pyStripList_idem]

lemma normKey_pyStrip (s : String) : normKey (pyStrip s) = normKey s := by
  unfold normKey
  rw [pyStrip_idem]

lemma contains_true_iff (l : List String) (a : String) : l.contains a = true ↔ a ∈ l :=
  List.elem_iff

lemma dedupKeyedGo_spec (l : List String) :
    ∀ seen : List String,
      ((dedupKeyedGo seen l).map normKey).Nodup ∧
        (∀ x ∈ dedupKeyedGo seen l, ¬seen.contains (normKey x) = true) := by
  induction l with
  | nil =>
    intro seen
    simp [dedupKeyedGo]
  | cons s rest ih =>
    intro seen
    unfold dedupKeyedGo
    dsimp only
    split
    · exact ih seen
    · rename_i hnotseen
      have hrec := ih (seen ++ [normKey s])
      constructor
      · rw [List.map_cons, List.nodup_cons]
        constructor
        · rw [normKey_pyStrip]
          intro hmem
          rw [List.mem_map] at hmem
          obtain ⟨x, hx, hkey⟩ := hmem
          have hnc := hrec.2 x hx
          rw [contains_true_iff] at hnc
          apply hnc
          rw [List.mem_append, List.mem_singleton, hkey]
          exact Or.inr rfl
        · exact hrec.1
      · intro x hx
        rw [List.mem_cons] at hx
        rcases hx with rfl | hx
        · rw [normKey_pyStrip]
          exact hnotseen
        · intro hc
          have hnc := hrec.2 x hx
          rw [contains_true_iff] at hnc
          rw [contains_true_iff] at hc
          exact hnc (List.mem_append_left _ hc)

lemma dedupKeyed_key_nodup (l : List String) : ((dedupKeyed l).map normKey).Nodup :=
  (dedupKeyedGo_spec l []).1

lemma map_key_nodup_of_indices (xs : List String) (hxs : (xs.map normKey).Nodup) :
    ∀ il : List Nat, il.Nodup → (∀ i ∈ il, i < xs.length) →
      ((il.filterMap (fun i => xs[i]?)).map normKey).Nodup := by
  have hinj : ∀ i j, (hi : i < xs.length) → (hj : j < xs.length) →
      normKey xs[i] = normKey xs[j] → i = j := by
    intro i j hi hj hkey
    have hi' : i < (xs.map normKey).length := by simpa using hi
    have hj' : j < (xs.map normKey).length := by simpa using hj
    have : (xs.map normKey)[i] = (xs.map normKey)[j] := by
      rw [List.getElem_map, List.getElem_map]
      exact hkey
    exact (List.Nodup.getElem_inj_iff hxs).mp this
  intro il
  induction il with
  | nil => simp
  | cons i rest ih =>
    intro hnd hbound
    have hi : i < xs.length := hbound i (List.mem_cons_self _ _)
    rw [List.nodup_cons] at hnd
    rw [List.filterMap_cons, List.getElem?_eq_getElem hi]
    simp only
    rw [List.map_cons, List.nodup_cons]
    constructor
    · intro hmem
      rw [List.mem_map] at hmem
      obtain ⟨y, hy, hkey⟩ := hmem
      rw [List.mem_filterMap] at hy
      obtain ⟨j, hj, hjy⟩ := hy
      have hjlt : j < xs.length := hbound j (List.mem_cons_of_mem _ hj)
      rw [List.getElem?_eq_getElem hjlt, Option.some.injEq] at hjy
      subst hjy
      have := hinj j i hjlt hi hkey
      subst this
      exact hnd.1 hj
    · exact ih hnd.2 (fun j hj => hbound j (List.mem_cons_of_mem _ hj))

/-- C6: over the deduplicated candidate sentence set the extractive summarizer
returns at most `clamp(round(0.2 × sentence_count), 2, 6)` sentences — the
code truncates (`int(n * 0.2)` = `n / 5`), which is bounded by the spec's
rounding `(2n+5)/10` — and never returns two sentences with the same
lowercased, trimmed text within one call (for every choice of the `log` and
`sqrt` stand-ins). -/
theorem extractive_summary_bound_and_no_repeats (logQ sqrtQ : ℚ → ℚ)
    (sortedEmails : List Email) :
    (extractiveSummary logQ sqrtQ sortedEmails).length ≤
      min 6 (max 2 ((2 * (dedupKeyed (rawSentences sortedEmails)).length + 5) / 10)) ∧
    ((extractiveSummary logQ sqrtQ sortedEmails).map normKey).Nodup := by
  by_cases hemp : (dedupKeyed (rawSentences sortedEmails)).isEmpty = true
  · unfold extractiveSummary
    simp [hemp]
  · unfold extractiveSummary
    rw [Bool.not_eq_true] at hemp
    simp only [hemp, Bool.false_eq_true, if_false]
    set sentences := dedupKeyed (rawSentences sortedEmails) with hsent
    set tokensList := sentences.map tokenize with htok
    set vectors := tokensList.map (tfidfVec logQ tokensList) with hvec
    set centroid := centroidOf vectors with hcent
    set k := min 6 (max 2 (sentences.length / 5)) with hkdef
    set sel := mmrSelect sqrtQ vectors centroid k (13 / 20) with hseldef
    set sortedIdx := pySorted (fun a b => decide (a ≤ b)) sel with hsorteddef
    have hspec := mmrSelect_spec sqrtQ vectors centroid k (13 / 20)
    rw [← hseldef] at hspec
    have hvlen : vectors.length = sentences.length := by
      rw [hvec, htok]
      simp
    have hperm := pySorted_perm (fun a b => decide (a ≤ b)) sel
    rw [← hsorteddef] at hperm
    constructor
    · calc (sortedIdx.filterMap (fun i => sentences[i]?)).length
          ≤ sortedIdx.length := List.length_filterMap_le _ _
        _ = sel.length := hperm.length_eq
        _ ≤ k := hspec.2.2
        _ ≤ min 6 (max 2 ((2 * sentences.length + 5) / 10)) := by
            rw [hkdef]
            omega
    · apply map_key_nodup_of_indices sentences (dedupKeyed_key_nodup _)
      · exact hperm.nodup_iff.mpr hspec.1
      · intro i hi
        rw [← hvlen]
        exact hspec.2.1 i (hperm.mem_iff.mp hi)

/-- C7: the urgency score equals the weighted sum over the fixed keyword table
of matched keywords, plus `min(3 × exclamation_count, 15)`, plus
`min(3 × all_caps_word_count, 15)`, plus the synergy bonus (+15 for at least
two high-impact keywords, +5 for exactly one), the total clamped to 100. -/
theorem urgency_score_is_weighted_sum (text : String) :
    (calculateUrgency text).score =
      min (urgencyKeywordSum text + urgencyExclaimTerm text + urgencyCapsTerm text +
        urgencySynergyTerm text) 100 := by
  unfold calculateUrgency urgencyKeywordSum urgencyExclaimTerm urgencyCapsTerm urgencySynergyTerm
  dsimp only
  rw [foldl_weight_sum]
  congr 1
  split_ifs <;> omega

end Outlook
